import Mathlib

/-
  Verification of the AirSS model layer (airss_model.js, items.js and the
  second model variant) against its natural-language specification.

  The JavaScript source is shallowly embedded: module-level mutable state
  becomes explicit state records threaded through the functions, promises
  become `Except JSError` values (awaiting a rejected promise rethrows the
  rejection), and the IndexedDB capability becomes a list of records kept in
  ascending key order with an auto-increment counter and the unique index on
  `url` enforced by `dbAdd`.
-/

namespace Airss

/-- JavaScript error values observed by the model layer: `domException` is the
store's unique-constraint / not-found error class, `typeError` the fetch
validation error, `jsNull` models the bare `throw null`, and `other` any
remaining (unexpected) error. -/
inductive JSError where
  | domException
  | typeError
  | jsNull
  | other (s : String)
  deriving Repr, DecidableEq

/-- The canonical item shape (items.js `SampleItem`). Optional fields model
JavaScript properties that may be absent/undefined. `datePublished` keeps the
raw date source text (`new Date(x)`); `none` models an absent or invalid
date. -/
structure Item where
  id : Nat := 0
  read : Bool := false
  feedTitle : String := ""
  feedId : Nat := 0
  datePublished : Option String := none
  contentHtml : String := ""
  url : String := ""
  imageUrl : Option String := none
  title : Option String := none
  tags : List String := []
  deriving Repr, DecidableEq

/-- The items object store: records in ascending key (`id`) order, as an idb
cursor scan would enumerate them, plus the auto-increment counter (strictly
greater than every assigned key). -/
structure ItemStore where
  recs : List Item := []
  nextId : Nat := 1
  deriving Repr, DecidableEq

/-- `db.add(Store, item)` with `keyPath: "id", autoIncrement: true` and the
unique index on `url`: a record whose `url` already exists makes the request
fail with a DOMException; otherwise the item is stored under the generated
key, which is returned. -/
def dbAdd (db : ItemStore) (it : Item) : Except JSError (Nat × ItemStore) :=
  if db.recs.any (fun r => r.url = it.url) then
    Except.error JSError.domException
  else
    Except.ok (db.nextId,
      { recs := db.recs ++ [{ it with id := db.nextId }], nextId := db.nextId + 1 })

/-- `db.get(Store, key)`: the record under `key`, or undefined. -/
def dbGet (db : ItemStore) (key : Nat) : Option Item :=
  db.recs.find? (fun r => r.id = key)

/-- `db.delete(Store, key)`: removes the record under `key` (no-op when the
key is absent). -/
def dbDelete (db : ItemStore) (key : Nat) : ItemStore :=
  { db with recs := db.recs.filter (fun r => r.id ≠ key) }

/-- Insert a record into the key-ordered record list (helper for `dbPut`). -/
def insertById (it : Item) : List Item → List Item
  | [] => [it]
  | r :: rs => if it.id ≤ r.id then it :: r :: rs else r :: insertById it rs

/-- `db.put(Store, item)`: upsert by key. In the modelled flows it is only
invoked with a record obtained from the store (markRead), so the insert
branch is never exercised. -/
def dbPut (db : ItemStore) (it : Item) : ItemStore :=
  if db.recs.any (fun r => r.id = it.id) then
    { db with recs := db.recs.map (fun r => if r.id = it.id then it else r) }
  else
    { db with recs := insertById it db.recs }

/-- The in-memory cursor state of items.js: the module-level variables
`items` (item ids in ascending order), `reading` and `known`. -/
structure Cursor where
  items : List Nat := []
  reading : Int := -1
  known : Int := -1
  deriving Repr, DecidableEq

namespace Items

/-- `readingCursor()` -/
def readingCursor (c : Cursor) : Int := c.reading

/-- `knownCursor()` -/
def knownCursor (c : Cursor) : Int := c.known

/-- `unreadCount()` = `items.length - known - 1` -/
def unreadCount (c : Cursor) : Int := (c.items.length : Int) - c.known - 1

/-- `length()` -/
def length (c : Cursor) : Nat := c.items.length

/-- `forwardCursor()`: no-op returning false at (or beyond) the last index;
otherwise increments `reading`, raises `known` to `reading` when it lags, and
returns true. -/
def forwardCursor (c : Cursor) : Bool × Cursor :=
  if c.reading ≥ (c.items.length : Int) - 1 then
    (false, c)
  else
    let reading := c.reading + 1
    let known := if c.known < reading then reading else c.known
    (true, { c with reading := reading, known := known })

/-- `backwardCursor()`: no-op returning false when `reading <= 0`; otherwise
decrements `reading`. -/
def backwardCursor (c : Cursor) : Bool × Cursor :=
  if c.reading ≤ 0 then
    (false, c)
  else
    (true, { c with reading := c.reading - 1 })

/-- `getCurrentItem(db)`: the stored record at `items[reading]`, or null when
`reading < 0`. An out-of-range index (unreachable in the modelled flows)
yields nothing. -/
def getCurrentItem (db : ItemStore) (c : Cursor) : Option Item :=
  if c.reading ≥ 0 then
    (c.items[c.reading.toNat]?).bind (fun key => dbGet db key)
  else
    none

/-- `markRead(db, item)`: no-op when already read, else persists the record
with `read = true`. -/
def markRead (db : ItemStore) (it : Item) : ItemStore :=
  if it.read then db else dbPut db { it with read := true }

/-- `deleteCurrentItem(db)`: false when `reading < 0`; otherwise deletes
`items[reading]` from the store, splices that slot out of `items`, decrements
both `reading` and `known`, and returns true. -/
def deleteCurrentItem (db : ItemStore) (c : Cursor) : Bool × ItemStore × Cursor :=
  if c.reading < 0 then
    (false, db, c)
  else
    let r := c.reading.toNat
    let db2 := match c.items[r]? with
      | some key => dbDelete db key
      | none => db
    (true, db2,
      { c with items := c.items.take r ++ c.items.drop (r + 1),
               reading := c.reading - 1, known := c.known - 1 })

/-- `pushItem(db, item)`: `db.add` (which may reject on the unique `url`
index; the rejection is left for the caller to catch) and, on success, the
generated id is appended to `items`. -/
def pushItem (db : ItemStore) (c : Cursor) (it : Item) :
    Except JSError Unit × ItemStore × Cursor :=
  match dbAdd db it with
  | Except.error e => (Except.error e, db, c)
  | Except.ok (id, db2) => (Except.ok (), db2, { c with items := c.items ++ [id] })

/-- `load(db)`: scans the store in ascending key order, rebuilding `items`
from the keys and counting records with `read = true` into `known` (starting
from -1); `reading` is pointed at `known`. -/
def load (db : ItemStore) : Cursor :=
  let items := db.recs.map (fun r => r.id)
  let known : Int := db.recs.foldl (fun k r => if r.read then k + 1 else k) (-1)
  { items := items, reading := known, known := known }

/-- JavaScript truthiness for an optional string: absent (undefined/null) and
the empty string are falsy. -/
def strTruthy : Option String → Bool
  | none => false
  | some s => s ≠ ""

/-- `oopsItem()` of items.js: the synthesized placeholder for a feed that
failed loading. `Math.random().toString(36).substring(2, 15)` and `new
Date()` are modelled as the parameters `rnd` and `nowS`. -/
def oopsItem (rnd : String) (nowS : String) : Item :=
  { datePublished := some nowS,
    contentHtml := "If you see this, this feed failed loading",
    url := rnd,
    title := some "Oops...",
    tags := [] }

/-- A JSON-Feed entry as consumed by `parseJSONItem`: each field is the
corresponding JSON property, `none` when undefined. -/
structure JSONEntry where
  date_published : Option String := none
  content_html : Option String := none
  content_text : Option String := none
  url : Option String := none
  image : Option String := none
  title : Option String := none
  tags : Option (List String) := none
  deriving Repr, DecidableEq

/-- `parseJSONItem(json)`: `content_html` if defined, else `content_text`
wrapped in a paragraph tag, else no item; a falsy `url` also yields no item;
`image` and `title` are copied as-is and `tags` defaults to the empty
sequence. -/
def parseJSONItem (json : JSONEntry) : Option Item :=
  let contentHtml? : Option String :=
    match json.content_html with
    | some ch => some ch
    | none =>
      match json.content_text with
      | some t => some ("<p>" ++ t ++ "</p>")
      | none => none
  match contentHtml? with
  | none => none
  | some ch =>
    match json.url with
    | none => none
    | some u =>
      if u = "" then none
      else
        some { datePublished := json.date_published,
               contentHtml := ch,
               url := u,
               imageUrl := json.image,
               title := json.title,
               tags := match json.tags with | some ts => ts | none => [] }

/-- An RSS2 `<item>` element as consumed by `parseRSS2Item`: each field is the
trimmed text content (or attribute value) selected by the source, `none` when
the element/attribute is absent. -/
structure RSS2Entry where
  pubDate : Option String := none
  description : Option String := none
  content : Option String := none
  link : Option String := none
  title : Option String := none
  enclosureUrl : Option String := none
  enclosureType : Option String := none
  categories : List String := []
  deriving Repr, DecidableEq

/-- `parseRSS2Item(elem)`: content:encoded preferred over description, a falsy
value of both yields no item; an image enclosure sets `imageUrl`; a falsy
`link` yields no item; a truthy `title` is kept; categories become `tags`. -/
def parseRSS2Item (e : RSS2Entry) : Option Item :=
  let datePublished : Option String :=
    if strTruthy e.pubDate then e.pubDate else none
  let contentHtml? : Option String :=
    if strTruthy e.content then e.content
    else if strTruthy e.description then e.description
    else none
  match contentHtml? with
  | none => none
  | some ch =>
    let imageUrl : Option String :=
      if strTruthy e.enclosureType then
        if ((e.enclosureType.getD "").splitOn "/").headD "" = "image" then
          e.enclosureUrl
        else none
      else none
    if strTruthy e.link then
      some { datePublished := datePublished,
             contentHtml := ch,
             url := e.link.getD "",
             imageUrl := imageUrl,
             title := if strTruthy e.title then e.title else none,
             tags := e.categories }
    else none

/-- An Atom `<entry>` element as consumed by `parseATOMItem`: text contents
and link attributes selected by the source, `none` when absent. -/
structure AtomEntry where
  published : Option String := none
  updated : Option String := none
  content : Option String := none
  summary : Option String := none
  link : Option String := none
  alternate : Option String := none
  enclosure : Option String := none
  enclosureType : Option String := none
  title : Option String := none
  categories : List String := []
  deriving Repr, DecidableEq

/-- `parseATOMItem(elem)`: published preferred over updated for the date;
content preferred over summary-wrapped-in-a-paragraph for the body, and when
both are falsy the source executes `throw null` (modelled as
`Except.error JSError.jsNull`) rather than returning no item; an image
enclosure sets `imageUrl`; the alternate link preferred over the plain link,
both falsy yielding no item; categories become `tags`. -/
def parseATOMItem (e : AtomEntry) : Except JSError (Option Item) :=
  let datePublished : Option String :=
    if strTruthy e.published then e.published
    else if strTruthy e.updated then e.updated
    else none
  let contentHtml? : Option String :=
    if strTruthy e.content then e.content
    else if strTruthy e.summary then some ("<p>" ++ e.summary.getD "" ++ "</p>")
    else none
  match contentHtml? with
  | none => Except.error JSError.jsNull
  | some ch =>
    let imageUrl : Option String :=
      if strTruthy e.enclosureType then
        if ((e.enclosureType.getD "").splitOn "/").headD "" = "image" then
          e.enclosure
        else none
      else none
    let url? : Option String :=
      if strTruthy e.alternate then e.alternate
      else if strTruthy e.link then e.link
      else none
    match url? with
    | none => Except.ok none
    | some u =>
      Except.ok (some { datePublished := datePublished,
                        contentHtml := ch,
                        url := u,
                        imageUrl := imageUrl,
                        title := if strTruthy e.title then e.title else none,
                        tags := e.categories })

end Items

/-- The combined mutable state of the model layer: the open database and the
items.js module state. -/
structure MState where
  store : ItemStore
  cur : Cursor
  deriving Repr, DecidableEq

/-- The cursor-store operations reachable after `load`: forward, backward,
delete, mark-the-current-item-read (as chained by the orchestrator, which
always feeds `markRead` the item just fetched from under the cursor), and
push. -/
inductive MOp where
  | fwd
  | bwd
  | del
  | markCur
  | push (it : Item)

/-- One cursor-store operation applied to the combined state. -/
def step (s : MState) : MOp → MState
  | MOp.fwd => ⟨s.store, (Items.forwardCursor s.cur).2⟩
  | MOp.bwd => ⟨s.store, (Items.backwardCursor s.cur).2⟩
  | MOp.del =>
      ⟨(Items.deleteCurrentItem s.store s.cur).2.1,
       (Items.deleteCurrentItem s.store s.cur).2.2⟩
  | MOp.markCur =>
      match Items.getCurrentItem s.store s.cur with
      | some it => ⟨Items.markRead s.store it, s.cur⟩
      | none => s
  | MOp.push it =>
      ⟨(Items.pushItem s.store s.cur it).2.1,
       (Items.pushItem s.store s.cur it).2.2⟩

/-- States reachable from loading any persisted store and running any
sequence of cursor-store operations. -/
inductive Reachable : MState → Prop where
  | loaded (db : ItemStore) : Reachable ⟨db, Items.load db⟩
  | step (s : MState) (o : MOp) : Reachable s → Reachable (step s o)

/-
  The operation serializer of airss_model.js (the first model variant): the
  module state `state` is a promise; each entry point replaces it with a new
  promise that first awaits the previous one. A promise is modelled by its
  settled outcome `Except JSError JSVal`; awaiting a rejected promise
  rethrows the rejection, which in turn rejects the awaiting step.
-/

/-- A settled JavaScript value flowing through the chain. -/
inductive JSVal where
  | null
  | undef
  | bool (b : Bool)
  | item (it : Item)
  deriving Repr, DecidableEq

/-- Wrap `getCurrentItem`: the resolved value is the item, or null/undefined
when there is none. -/
def jsItemVal : Option Item → JSVal
  | some it => JSVal.item it
  | none => JSVal.null

namespace Model1

/-- `cb_currentItem(prev)`: awaits `prev` (rethrowing a rejection), then
resolves to the current item. -/
def cb_currentItem (prev : Except JSError JSVal) (s : MState) :
    Except JSError JSVal × MState :=
  match prev with
  | Except.error e => (Except.error e, s)
  | Except.ok _ => (Except.ok (jsItemVal (Items.getCurrentItem s.store s.cur)), s)

/-- `cb_forwardItem(prev)`: awaits `prev` (rethrowing a rejection), then
moves the cursor forward, resolving to null when already at the end and to
the new current item otherwise. -/
def cb_forwardItem (prev : Except JSError JSVal) (s : MState) :
    Except JSError JSVal × MState :=
  match prev with
  | Except.error e => (Except.error e, s)
  | Except.ok _ =>
    match Items.forwardCursor s.cur with
    | (false, c2) => (Except.ok JSVal.null, ⟨s.store, c2⟩)
    | (true, c2) =>
      (Except.ok (jsItemVal (Items.getCurrentItem s.store c2)), ⟨s.store, c2⟩)

/-- `cb_backwardItem(prev)`: awaits `prev` (rethrowing a rejection), then
moves the cursor backward, resolving to null when already at the beginning
and to the new current item otherwise. -/
def cb_backwardItem (prev : Except JSError JSVal) (s : MState) :
    Except JSError JSVal × MState :=
  match prev with
  | Except.error e => (Except.error e, s)
  | Except.ok _ =>
    match Items.backwardCursor s.cur with
    | (false, c2) => (Except.ok JSVal.null, ⟨s.store, c2⟩)
    | (true, c2) =>
      (Except.ok (jsItemVal (Items.getCurrentItem s.store c2)), ⟨s.store, c2⟩)

/-- `cb_deleteItem(prev)`: awaits `prev` (rethrowing a rejection), then
deletes the current item, resolving to the boolean outcome. -/
def cb_deleteItem (prev : Except JSError JSVal) (s : MState) :
    Except JSError JSVal × MState :=
  match prev with
  | Except.error e => (Except.error e, s)
  | Except.ok _ =>
    match Items.deleteCurrentItem s.store s.cur with
    | (b, db2, c2) => (Except.ok (JSVal.bool b), ⟨db2, c2⟩)

/-- `cb_markRead(prev)`: awaits `prev` (rethrowing a rejection); a truthy
value — which, as chained by `forwardItem`, is always the item just fetched
from under the cursor — is marked read. -/
def cb_markRead (prev : Except JSError JSVal) (s : MState) :
    Except JSError JSVal × MState :=
  match prev with
  | Except.error e => (Except.error e, s)
  | Except.ok (JSVal.item it) => (Except.ok JSVal.undef, ⟨Items.markRead s.store it, s.cur⟩)
  | Except.ok _ => (Except.ok JSVal.undef, s)

end Model1

/-
  The feed registry (feeds.js). The file is not among the sources; only its
  call sites and the spec describe it.
-/

/-- Modelled from the spec: feeds.js is not among the sources. A feed record
(§3): store-assigned id, unique feedUrl, title, lastLoadTime in epoch
milliseconds, and the error recorded by a failed poll (used by the second
model variant). -/
structure Feed where
  id : Nat := 0
  feedUrl : String := ""
  title : String := ""
  lastLoadTime : Int := 0
  error : Option String := none
  deriving Repr, DecidableEq

/-- Modelled from the spec: feeds.js is not among the sources. The registry
state: the round-robin order of feed ids (front first) and the persisted feed
records. -/
structure FeedRegistry where
  order : List Nat := []
  recs : List Feed := []
  deriving Repr, DecidableEq

namespace Feeds

/-- Modelled from the spec: feeds.js is not among the sources. `first()`
peeks the feed id at the front of the round-robin order, or nothing. -/
def first (reg : FeedRegistry) : Option Nat := reg.order.head?

/-- Modelled from the spec: feeds.js is not among the sources. `rotate()`
moves the front feed to the back of the round-robin order. -/
def rotate (reg : FeedRegistry) : FeedRegistry :=
  match reg.order with
  | [] => reg
  | f :: rest => { reg with order := rest ++ [f] }

/-- Modelled from the spec: feeds.js is not among the sources. `get(db, id)`
fetches the feed record under `id`. -/
def get (reg : FeedRegistry) (id : Nat) : Option Feed :=
  reg.recs.find? (fun f => f.id = id)

/-- Modelled from the spec: feeds.js is not among the sources.
`updateFeed(db, feed)` persists the full record under its id. -/
def updateFeed (reg : FeedRegistry) (feed : Feed) : FeedRegistry :=
  { reg with recs := reg.recs.map (fun f => if f.id = feed.id then feed else f) }

/-- Modelled from the spec: feeds.js is not among the sources.
`touchFeed(db, feed)` persists only the feed record's `lastLoadTime`. -/
def touchFeed (reg : FeedRegistry) (feed : Feed) : FeedRegistry :=
  { reg with recs := reg.recs.map (fun f =>
      if f.id = feed.id then { f with lastLoadTime := feed.lastLoadTime } else f) }

end Feeds

/-- The item-push loop shared by both loaders: pushes each item in turn,
catching the store's rejection (a DOMException — the unique `url` index — is
the only error the store raises here) and carrying on; the state after a
rejected push is unchanged. -/
def pushLoop (st : MState) (l : List Item) : MState :=
  l.foldl (fun s it =>
    ⟨(Items.pushItem s.store s.cur it).2.1, (Items.pushItem s.store s.cur it).2.2⟩) st

namespace Feeds

/-- Modelled from the spec: feeds.js is not among the sources.
`loadItems(db, feed)` fetches and normalizes the feed's entries (the network
fetch and normalization are the oracle `fetch`, giving the new items or
nothing on a fetch error), always persists the feed's `lastLoadTime` as the
attempt time (§4.4: a feed that errored must not be retried within the same
wait window), and on a fetch error returns the single synthesized oops
item of items.js. -/
def loadItems (fetch : Nat → Option (List Item)) (rnd nowS : String) (now : Int)
    (reg : FeedRegistry) (feed : Feed) : List Item × FeedRegistry :=
  let reg2 := updateFeed reg { feed with lastLoadTime := now }
  match fetch feed.id with
  | some items => (items, reg2)
  | none => ([Items.oopsItem rnd nowS], reg2)

end Feeds

namespace Model1

/-- `WaterMark`: load more when the cursor is this close to the end. -/
def WaterMark : Int := 10

/-- `MinReloadWait`: minimal elapsed milliseconds before a reload. -/
def MinReloadWait : Int := 3600 * 1000

/-- `shouldLoadMore()` -/
def shouldLoadMore (c : Cursor) : Bool := Items.unreadCount c < WaterMark

/-- `loadFeed(feedId)` of airss_model.js: when the minimum reload wait has
not yet elapsed, does nothing and returns -1; otherwise loads the feed's
items, pushes them in reverse order (absorbing duplicate rejections), rotates
the registry, and returns the number of items actually added. A lookup miss
(impossible for an id produced by `first()`) is modelled as the skip
result. -/
def loadFeed (fetch : Nat → Option (List Item)) (rnd nowS : String) (now : Int)
    (st : MState) (reg : FeedRegistry) (feedId : Nat) :
    Int × MState × FeedRegistry :=
  match Feeds.get reg feedId with
  | none => (-1, st, reg)
  | some feed =>
    if feed.lastLoadTime ≤ now - MinReloadWait then
      let fetched := Feeds.loadItems fetch rnd nowS now reg feed
      let oldCount : Int := Items.length st.cur
      let st2 := pushLoop st fetched.1.reverse
      let num : Int := Items.length st2.cur - oldCount
      (num, st2, Feeds.rotate fetched.2)
    else
      (-1, st, reg)

/-- `loadMore()` of airss_model.js: the do/while loop polling the front feed
(result -1 when no feed exists) while the poll made progress (`num >= 0`) and
the watermark is still unmet. The structural `fuel` argument bounds the
number of iterations; every run below is given ample fuel. -/
def loadMore (fetch : Nat → Option (List Item)) (rnd nowS : String) (now : Int) :
    Nat → MState → FeedRegistry → MState × FeedRegistry
  | 0, st, reg => (st, reg)
  | Nat.succ fuel, st, reg =>
    let r : Int × MState × FeedRegistry :=
      match Feeds.first reg with
      | some feedId => loadFeed fetch rnd nowS now st reg feedId
      | none => ((-1 : Int), st, reg)
    if r.1 ≥ 0 ∧ shouldLoadMore r.2.1.cur then
      loadMore fetch rnd nowS now fuel r.2.1 r.2.2
    else
      (r.2.1, r.2.2)

end Model1

namespace Model2

/-- `WaterMark` of the second model variant (localStorage default 10). -/
def WaterMark : Int := 10

/-- `MinReloadWait` of the second model variant, in hours (default 12). -/
def MinReloadWait : Int := 12

/-- `MaxKeptPeriod` of the second model variant, in days (default 180). -/
def MaxKeptPeriod : Int := 180

/-- `oopsItem(feed)` of the second model variant: the synthesized error item
for a feed that failed loading, tagged with the error marker. `Math.random`
and `new Date()` are modelled as the parameters `rnd` and `nowS`. -/
def oopsItem (rnd nowS : String) (feed : Feed) : Item :=
  { datePublished := some nowS,
    contentHtml := "If you see this, this feed \x27" ++ feed.feedUrl ++
      "\x27 failed loading:" ++ "Check the console for the detail error.",
    url := rnd,
    title := some "Oops...",
    tags := ["_error"],
    feedTitle := feed.title,
    feedId := feed.id }

/-- `dummyItem(feed)` of the second model variant: the placeholder for a feed
quiet longer than `MaxKeptPeriod` days. -/
def dummyItem (rnd nowS : String) (feed : Feed) : Item :=
  { datePublished := some nowS,
    contentHtml := "If you see this, this feed \x27" ++ feed.feedUrl ++
      "\x27 hasn\x27t been updated for " ++ toString MaxKeptPeriod ++
      " days. There is nothing wrong, just too quiet.",
    url := rnd,
    title := some "Errrr...",
    tags := ["_error"],
    feedTitle := feed.title,
    feedId := feed.id }

/-- `cb_getLoadCandidate(prev)` of the second model variant: awaits `prev`
(rethrowing a rejection); returns null when the watermark is met, when no
feed is at the front of the round-robin order (a falsy id — never assigned by
the store — also counts), or when the front feed's minimum reload wait has
not yet elapsed; otherwise rotates the order and returns the feed. A lookup
miss on the id would fault as a TypeError on property access. -/
def cb_getLoadCandidate (prev : Except JSError JSVal) (now : Int) (st : MState)
    (reg : FeedRegistry) : Except JSError (Option Feed) × FeedRegistry :=
  match prev with
  | Except.error e => (Except.error e, reg)
  | Except.ok _ =>
    if Items.unreadCount st.cur ≥ WaterMark then
      (Except.ok none, reg)
    else
      match Feeds.first reg with
      | none => (Except.ok none, reg)
      | some feedId =>
        if feedId = 0 then (Except.ok none, reg)
        else
          match Feeds.get reg feedId with
          | none => (Except.error JSError.typeError, reg)
          | some feed =>
            if feed.lastLoadTime > now - MinReloadWait * 3600 * 1000 then
              (Except.ok none, reg)
            else
              (Except.ok (some feed), Feeds.rotate reg)

/-- `cb_updateFeed(prev, feed, items)` of the second model variant: awaits
`prev` (rethrowing a rejection), pushes the fetched items in reverse order
(absorbing duplicate rejections); a feed that carries an error gets the
single synthesized oops item (this push is not guarded — its rejection would
propagate), its error cleared; a quiet feed gets the dummy item; the feed's
`lastLoadTime` is set to `now` and the record is fully persisted when
anything was added, otherwise only its `lastLoadTime` is persisted. -/
def cb_updateFeed (rnd nowS : String) (now : Int) (prev : Except JSError JSVal)
    (st : MState) (reg : FeedRegistry) (feed : Feed) (items : List Item) :
    Except JSError (MState × FeedRegistry) :=
  match prev with
  | Except.error e => Except.error e
  | Except.ok _ =>
    let oldCount : Int := Items.length st.cur
    let st2 := pushLoop st items.reverse
    let num : Int := Items.length st2.cur - oldCount
    let branch : Except JSError (MState × Feed × Int) :=
      match feed.error with
      | some _ =>
        match Items.pushItem st2.store st2.cur (oopsItem rnd nowS feed) with
        | (Except.error e, _, _) => Except.error e
        | (Except.ok _, db3, c3) =>
          Except.ok (⟨db3, c3⟩, { feed with error := none }, num + 1)
      | none =>
        if num = 0 ∧ feed.lastLoadTime < now - MaxKeptPeriod * 24 * 3600 * 1000 then
          match Items.pushItem st2.store st2.cur (dummyItem rnd nowS feed) with
          | (Except.error e, _, _) => Except.error e
          | (Except.ok _, db3, c3) => Except.ok (⟨db3, c3⟩, feed, num + 1)
        else
          Except.ok (st2, feed, num)
    match branch with
    | Except.error e => Except.error e
    | Except.ok (st3, feed2, num2) =>
      let feed3 := { feed2 with lastLoadTime := now }
      if num2 > 0 then
        Except.ok (st3, Feeds.updateFeed reg feed3)
      else
        Except.ok (st3, Feeds.touchFeed reg feed3)

end Model2

/-
  Theorems.
-/

/-- Counting read records by the load scan's fold equals counting them by
filtering. -/
theorem foldl_read_count (l : List Item) (a : Int) :
    l.foldl (fun k r => if r.read then k + 1 else k) a
      = a + ((l.filter (fun r => r.read)).length : Int) := by
  induction l generalizing a with
  | nil => simp
  | cons x xs ih =>
    cases hx : x.read with
    | false => simp [List.foldl_cons, List.filter_cons, hx, ih]
    | true =>
      simp only [List.foldl_cons, List.filter_cons, hx, if_true, ih]
      simp only [List.length_cons]
      push_cast
      ring

/-- The cursor-store invariant: `reading` at least -1, never past `known`,
and `known` within the list. -/
def CurInv (c : Cursor) : Prop :=
  -1 ≤ c.reading ∧ c.reading ≤ c.known ∧ c.known ≤ (c.items.length : Int) - 1

theorem load_curInv (db : ItemStore) : CurInv (Items.load db) := by
  have hle := List.length_filter_le (fun r => r.read) db.recs
  unfold CurInv Items.load
  simp only [foldl_read_count, List.length_map]
  omega

theorem fwd_curInv (c : Cursor) (h : CurInv c) : CurInv (Items.forwardCursor c).2 := by
  obtain ⟨h1, h2, h3⟩ := h
  unfold Items.forwardCursor
  split
  · exact ⟨h1, h2, h3⟩
  · unfold CurInv
    dsimp only
    split <;> omega

theorem bwd_curInv (c : Cursor) (h : CurInv c) : CurInv (Items.backwardCursor c).2 := by
  obtain ⟨h1, h2, h3⟩ := h
  unfold Items.backwardCursor
  split
  · exact ⟨h1, h2, h3⟩
  · unfold CurInv
    dsimp only
    omega

theorem del_curInv (db : ItemStore) (c : Cursor) (h : CurInv c) :
    CurInv (Items.deleteCurrentItem db c).2.2 := by
  obtain ⟨h1, h2, h3⟩ := h
  unfold Items.deleteCurrentItem
  split
  · exact ⟨h1, h2, h3⟩
  · unfold CurInv
    dsimp only
    simp only [List.length_append, List.length_take, List.length_drop]
    omega

theorem push_curInv (db : ItemStore) (c : Cursor) (it : Item) (h : CurInv c) :
    CurInv (Items.pushItem db c it).2.2 := by
  obtain ⟨h1, h2, h3⟩ := h
  unfold Items.pushItem dbAdd
  split
  · exact ⟨h1, h2, h3⟩
  · unfold CurInv
    dsimp only
    simp only [List.length_append, List.length_cons, List.length_nil]
    omega

theorem step_curInv (s : MState) (o : MOp) (h : CurInv s.cur) : CurInv (step s o).cur := by
  cases o with
  | fwd => exact fwd_curInv s.cur h
  | bwd => exact bwd_curInv s.cur h
  | del => exact del_curInv s.store s.cur h
  | markCur =>
    unfold step
    cases Items.getCurrentItem s.store s.cur <;> exact h
  | push it => exact push_curInv s.store s.cur it h

theorem reachable_curInv (s : MState) (h : Reachable s) : CurInv s.cur := by
  induction h with
  | loaded db => exact load_curInv db
  | step s o _ ih => exact step_curInv s o ih

/-- C2. In every state reachable through load, pushItem, forwardCursor,
backwardCursor, markRead and deleteCurrentItem, `unreadCount()` equals
`length() - knownCursor() - 1` and is never negative. -/
theorem unreadCount_eq_and_nonneg (s : MState) (h : Reachable s) :
    Items.unreadCount s.cur
        = (Items.length s.cur : Int) - Items.knownCursor s.cur - 1 ∧
      0 ≤ Items.unreadCount s.cur := by
  have hinv := reachable_curInv s h
  obtain ⟨h1, h2, h3⟩ := hinv
  unfold Items.unreadCount Items.length Items.knownCursor
  omega

/-- Witness for C2 at a concretely loaded store. -/
theorem unreadCount_eq_and_nonneg_witness :
    0 ≤ Items.unreadCount (Items.load { recs := [{ url := "a" }], nextId := 2 }) :=
  (unreadCount_eq_and_nonneg
    ⟨{ recs := [{ url := "a" }], nextId := 2 },
      Items.load { recs := [{ url := "a" }], nextId := 2 }⟩
    (Reachable.loaded { recs := [{ url := "a" }], nextId := 2 })).2

/-- A navigation sequence: `true` is a forwardCursor call, `false` a
backwardCursor call. -/
def navRun (c : Cursor) : List Bool → Cursor
  | [] => c
  | b :: rest =>
    navRun (if b then (Items.forwardCursor c).2 else (Items.backwardCursor c).2) rest

theorem fwd_items (c : Cursor) : (Items.forwardCursor c).2.items = c.items := by
  unfold Items.forwardCursor
  split <;> rfl

theorem bwd_items (c : Cursor) : (Items.backwardCursor c).2.items = c.items := by
  unfold Items.backwardCursor
  split <;> rfl

theorem fwd_reading_bounds (c : Cursor) (h1 : -1 ≤ c.reading)
    (h2 : c.reading ≤ (c.items.length : Int) - 1) :
    -1 ≤ (Items.forwardCursor c).2.reading ∧
      (Items.forwardCursor c).2.reading ≤ (c.items.length : Int) - 1 := by
  unfold Items.forwardCursor
  split
  · exact ⟨h1, h2⟩
  · dsimp only
    omega

theorem bwd_reading_bounds (c : Cursor) (h1 : -1 ≤ c.reading)
    (h2 : c.reading ≤ (c.items.length : Int) - 1) :
    -1 ≤ (Items.backwardCursor c).2.reading ∧
      (Items.backwardCursor c).2.reading ≤ (c.items.length : Int) - 1 := by
  unfold Items.backwardCursor
  split
  · exact ⟨h1, h2⟩
  · dsimp only
    omega

theorem navRun_bounds (l : List Bool) (c : Cursor) (h1 : -1 ≤ c.reading)
    (h2 : c.reading ≤ (c.items.length : Int) - 1) :
    (navRun c l).items = c.items ∧ -1 ≤ (navRun c l).reading ∧
      (navRun c l).reading ≤ (c.items.length : Int) - 1 := by
  induction l generalizing c with
  | nil => exact ⟨rfl, h1, h2⟩
  | cons b rest ih =>
    cases b with
    | true =>
      have hb := fwd_reading_bounds c h1 h2
      have hit := fwd_items c
      have := ih (Items.forwardCursor c).2 hb.1 (by rw [hit]; exact hb.2)
      simpa [navRun, hit] using this
    | false =>
      have hb := bwd_reading_bounds c h1 h2
      have hit := bwd_items c
      have := ih (Items.backwardCursor c).2 hb.1 (by rw [hit]; exact hb.2)
      simpa [navRun, hit] using this

/-- C3. From a loaded state, any sequence of forward/backward calls keeps
`reading` within `[-1, length-1]`; forwardCursor at the last index is a no-op
returning false, backwardCursor at `reading <= 0` is a no-op returning false,
and otherwise forwardCursor increments `reading`, raises `known` to `reading`
exactly when it lagged, and returns true. -/
theorem cursor_navigation_spec :
    (∀ (db : ItemStore) (l : List Bool),
        -1 ≤ (navRun (Items.load db) l).reading ∧
          (navRun (Items.load db) l).reading
            ≤ (((navRun (Items.load db) l).items.length : Int) - 1)) ∧
    (∀ c : Cursor, c.reading = (c.items.length : Int) - 1 →
        Items.forwardCursor c = (false, c)) ∧
    (∀ c : Cursor, c.reading ≤ 0 → Items.backwardCursor c = (false, c)) ∧
    (∀ c : Cursor, c.reading < (c.items.length : Int) - 1 →
        Items.forwardCursor c
          = (true, { c with reading := c.reading + 1,
                            known := if c.known < c.reading + 1 then c.reading + 1
                                     else c.known })) := by
  refine ⟨?_, ?_, ?_, ?_⟩
  · intro db l
    have hinv := load_curInv db
    obtain ⟨h1, h2, h3⟩ := hinv
    have := navRun_bounds l (Items.load db) h1 (by omega)
    rw [this.1]
    exact ⟨this.2.1, this.2.2⟩
  · intro c h
    unfold Items.forwardCursor
    rw [if_pos (by omega)]
  · intro c h
    unfold Items.backwardCursor
    rw [if_pos h]
  · intro c h
    unfold Items.forwardCursor
    rw [if_neg (by omega)]

/-- Witness for C3 at concrete cursors and a concrete loaded store. -/
theorem cursor_navigation_spec_witness :
    (-1 ≤ (navRun (Items.load { recs := [{ url := "a" }], nextId := 2 })
            [true, true, false]).reading) ∧
    Items.forwardCursor { items := [5], reading := 0, known := 0 }
        = (false, { items := [5], reading := 0, known := 0 }) ∧
    Items.backwardCursor { items := [5], reading := -1, known := -1 }
        = (false, { items := [5], reading := -1, known := -1 }) ∧
    Items.forwardCursor { items := [5, 7], reading := 0, known := 0 }
        = (true, { items := [5, 7], reading := 1, known := 1 }) := by
  have h := cursor_navigation_spec
  refine ⟨(h.1 { recs := [{ url := "a" }], nextId := 2 } [true, true, false]).1,
          h.2.1 { items := [5], reading := 0, known := 0 } (by decide),
          h.2.2.1 { items := [5], reading := -1, known := -1 } (by decide),
          ?_⟩
  have h4 := h.2.2.2 { items := [5, 7], reading := 0, known := 0 } (by decide)
  simpa using h4

/-- The index of the last item of the contiguous read prefix, following the
words of the spec (for comparison with the implementation's load scan). -/
def readPrefixIdx (recs : List Item) : Int :=
  ((recs.takeWhile (fun r => r.read)).length : Int) - 1

/-- The persisted store refuting C4's contiguous-prefix reading: an unread
record followed by a read one. -/
def dbC4 : ItemStore :=
  { recs := [{ id := 1, url := "a" }, { id := 2, url := "b", read := true }],
    nextId := 3 }

/-- C4 counterexample: on a store whose read flags are not a contiguous
prefix, the load scan's `known` (count of read records minus one) differs
from the index of the last item of the contiguous read prefix. -/
theorem load_known_not_prefix_index_cex :
    (Items.load dbC4).known = 0 ∧ readPrefixIdx dbC4.recs = -1 ∧
      (Items.load dbC4).known ≠ readPrefixIdx dbC4.recs ∧
      (Items.load dbC4).reading = (Items.load dbC4).known := by
  refine ⟨rfl, ?_, by decide, rfl⟩
  rfl

/-- C4 as amended: after load, `known` equals the number of stored records
whose read flag is true (scanned in ascending key order) minus one — which is
the index of the last item of the contiguous read prefix only when the read
records do form such a prefix — and `reading` is initialized to `known`. -/
theorem load_known_count_read (db : ItemStore) :
    (Items.load db).known = ((db.recs.filter (fun r => r.read)).length : Int) - 1 ∧
      (Items.load db).reading = (Items.load db).known := by
  refine ⟨?_, rfl⟩
  show db.recs.foldl (fun k r => if r.read then k + 1 else k) (-1)
      = ((db.recs.filter (fun r => r.read)).length : Int) - 1
  rw [foldl_read_count]
  omega

/-- C10. In every reachable cursor-store state the reading cursor never
points past the known watermark: load makes them equal, forwardCursor
restores `known >= reading` after incrementing, backwardCursor only
decreases `reading`, deleteCurrentItem decrements both, and pushItem touches
neither. -/
theorem reading_le_known_invariant (s : MState) (h : Reachable s) :
    s.cur.reading ≤ s.cur.known :=
  (reachable_curInv s h).2.1

/-- Witness for C10 after a concrete load and forward step. -/
theorem reading_le_known_invariant_witness :
    (step ⟨{ recs := [{ url := "b" }], nextId := 2 },
           Items.load { recs := [{ url := "b" }], nextId := 2 }⟩ MOp.fwd).cur.reading
      ≤ (step ⟨{ recs := [{ url := "b" }], nextId := 2 },
           Items.load { recs := [{ url := "b" }], nextId := 2 }⟩ MOp.fwd).cur.known :=
  reading_le_known_invariant _
    (Reachable.step _ MOp.fwd (Reachable.loaded { recs := [{ url := "b" }], nextId := 2 }))

/-- A store with two items used to exhibit the chain behaviour. -/
def iA : Item := { id := 1, url := "a" }

def iB : Item := { id := 2, url := "b" }

def sC1 : MState :=
  ⟨{ recs := [iA, iB], nextId := 3 }, { items := [1, 2], reading := 1, known := 1 }⟩

/-- C1 counterexample: a chained step whose predecessor rejected does not
perform its own work — awaiting the rejected promise rethrows, so
`cb_backwardItem` resolves to the same rejection and leaves the state
untouched, whereas with a fulfilled predecessor it would move the cursor and
produce the previous item. -/
theorem chain_rejection_not_isolated_cex :
    Model1.cb_backwardItem (Except.error (JSError.other "boom")) sC1
        = (Except.error (JSError.other "boom"), sC1) ∧
      Model1.cb_backwardItem (Except.ok JSVal.null) sC1
        = (Except.ok (JSVal.item iA),
           ⟨sC1.store, { items := [1, 2], reading := 0, known := 1 }⟩) := by
  constructor
  · rfl
  · rfl

/-- C1 as amended: an unexpected rejection of a chained step propagates to
that step's caller and to every subsequent chained operation — each later
step's await of its rejected predecessor rethrows the same error, so the
step rejects without performing any of its own work and the chain stays
poisoned. -/
theorem chain_rejection_poisons_chain :
    ∀ (e : JSError) (s : MState),
      Model1.cb_currentItem (Except.error e) s = (Except.error e, s) ∧
        Model1.cb_forwardItem (Except.error e) s = (Except.error e, s) ∧
        Model1.cb_backwardItem (Except.error e) s = (Except.error e, s) ∧
        Model1.cb_deleteItem (Except.error e) s = (Except.error e, s) ∧
        Model1.cb_markRead (Except.error e) s = (Except.error e, s) := by
  intro e s
  exact ⟨rfl, rfl, rfl, rfl, rfl⟩

/-- C5. Pushing two items with the same url stores exactly one record: the
first push succeeds (appending the generated id), the second is rejected
with the store's DOMException leaving the store, the ordered id list and the
cursors exactly as they were before the rejected push, and exactly one
record with that url exists. -/
theorem push_duplicate_url_rejected (db : ItemStore) (c : Cursor) (it1 it2 : Item)
    (hurl : it1.url = it2.url)
    (hfresh : ∀ r ∈ db.recs, r.url ≠ it1.url) :
    Items.pushItem db c it1
        = (Except.ok (),
           { recs := db.recs ++ [{ it1 with id := db.nextId }], nextId := db.nextId + 1 },
           { c with items := c.items ++ [db.nextId] }) ∧
      Items.pushItem
          { recs := db.recs ++ [{ it1 with id := db.nextId }], nextId := db.nextId + 1 }
          { c with items := c.items ++ [db.nextId] } it2
        = (Except.error JSError.domException,
           { recs := db.recs ++ [{ it1 with id := db.nextId }], nextId := db.nextId + 1 },
           { c with items := c.items ++ [db.nextId] }) ∧
      ((db.recs ++ [{ it1 with id := db.nextId }]).filter
          (fun r : Item => r.url = it2.url)).length = 1 := by
  refine ⟨?_, ?_, ?_⟩
  · unfold Items.pushItem dbAdd
    rw [if_neg ?_]
    · simp only [List.any_eq_true, decide_eq_true_eq, not_exists, not_and]
      exact hfresh
  · unfold Items.pushItem dbAdd
    rw [if_pos ?_]
    · simp [List.any_append, hurl]
  · rw [List.filter_append]
    have h1 : db.recs.filter (fun r : Item => r.url = it2.url) = [] := by
      rw [List.filter_eq_nil_iff]
      intro a ha
      simp only [decide_eq_true_eq]
      intro hcontra
      exact hfresh a ha (hurl ▸ hcontra)
    rw [h1]
    simp [hurl]

/-- Witness for C5: duplicate url "u" pushed into an empty store. -/
theorem push_duplicate_url_rejected_witness :
    Items.pushItem { recs := [], nextId := 1 } { items := [], reading := -1, known := -1 }
        { url := "u" }
      = (Except.ok (), { recs := [{ id := 1, url := "u" }], nextId := 2 },
         { items := [1], reading := -1, known := -1 }) ∧
      Items.pushItem { recs := [{ id := 1, url := "u" }], nextId := 2 }
          { items := [1], reading := -1, known := -1 } { url := "u", title := some "t" }
        = (Except.error JSError.domException,
           { recs := [{ id := 1, url := "u" }], nextId := 2 },
           { items := [1], reading := -1, known := -1 }) := by
  have h := push_duplicate_url_rejected { recs := [], nextId := 1 }
    { items := [], reading := -1, known := -1 } { url := "u" } { url := "u", title := some "t" }
    rfl (by intro r hr; simp at hr)
  exact ⟨h.1, h.2.1⟩

/-- C6. deleteCurrentItem: with `reading < 0` it returns false changing
nothing; otherwise it deletes the record under `items[reading]`, splices the
slot out with no gap, decrements `reading` and `known` by one and returns
true; deleting at the last index leaves `reading` equal to the post-deletion
`length() - 1`, and the deleted id is absent from the list afterwards. -/
theorem deleteCurrentItem_spec :
    (∀ (db : ItemStore) (c : Cursor), c.reading < 0 →
        Items.deleteCurrentItem db c = (false, db, c)) ∧
      (∀ (db : ItemStore) (c : Cursor) (k : Nat),
        0 ≤ c.reading → c.items[c.reading.toNat]? = some k → c.items.Nodup →
        Items.deleteCurrentItem db c
            = (true, dbDelete db k,
               { c with items := c.items.take c.reading.toNat
                          ++ c.items.drop (c.reading.toNat + 1),
                        reading := c.reading - 1, known := c.known - 1 }) ∧
          k ∉ c.items.take c.reading.toNat ++ c.items.drop (c.reading.toNat + 1) ∧
          (c.reading = (c.items.length : Int) - 1 →
            c.reading - 1
              = ((c.items.take c.reading.toNat
                    ++ c.items.drop (c.reading.toNat + 1)).length : Int) - 1)) := by
  constructor
  · intro db c h
    unfold Items.deleteCurrentItem
    rw [if_pos h]
  · intro db c k h0 hk hnd
    have hlen : c.reading.toNat < c.items.length := by
      by_contra hge
      push_neg at hge
      rw [List.getElem?_eq_none hge] at hk
      exact Option.noConfusion hk
    have hki : c.items[c.reading.toNat] = k := by
      have h2 := List.getElem?_eq_getElem hlen
      rw [h2] at hk
      exact Option.some.inj hk
    refine ⟨?_, ?_, ?_⟩
    · unfold Items.deleteCurrentItem
      rw [if_neg (by omega)]
      simp only [hk]
    · have hsplit := List.take_append_drop c.reading.toNat c.items
      have hdrop : c.items.drop c.reading.toNat
          = k :: c.items.drop (c.reading.toNat + 1) := by
        rw [List.drop_eq_getElem_cons hlen, hki]
      have hnd2 : (c.items.take c.reading.toNat
          ++ k :: c.items.drop (c.reading.toNat + 1)).Nodup := by
        have h3 := hnd
        rw [← hsplit, hdrop] at h3
        exact h3
      rcases List.nodup_append.mp hnd2 with ⟨hn1, hn2, hdisj⟩
      intro hmem
      rcases List.mem_append.mp hmem with hm | hm
      · exact hdisj hm (List.mem_cons_self k _)
      · exact (List.nodup_cons.mp hn2).1 hm
    · intro hlast
      simp only [List.length_append, List.length_take, List.length_drop]
      omega

/-- Witness for C6: deleting the last of two items, and the no-op at
`reading = -1`. -/
theorem deleteCurrentItem_spec_witness :
    Items.deleteCurrentItem { recs := [iA, iB], nextId := 3 }
        { items := [1, 2], reading := -1, known := -1 }
      = (false, { recs := [iA, iB], nextId := 3 },
         { items := [1, 2], reading := -1, known := -1 }) ∧
      Items.deleteCurrentItem { recs := [iA, iB], nextId := 3 }
          { items := [1, 2], reading := 1, known := 1 }
        = (true, dbDelete { recs := [iA, iB], nextId := 3 } 2,
           { items := [1], reading := 0, known := 0 }) ∧
      (2 : Nat) ∉ ([1] : List Nat) := by
  have hno := deleteCurrentItem_spec.1 { recs := [iA, iB], nextId := 3 }
    { items := [1, 2], reading := -1, known := -1 } (by decide)
  have h := deleteCurrentItem_spec.2 { recs := [iA, iB], nextId := 3 }
    { items := [1, 2], reading := 1, known := 1 } 2 (by decide) (by decide) (by decide)
  exact ⟨hno, h.1, h.2.1⟩

/-- The Atom entry refuting C7's claim that all three formats reject a
body-less entry by returning no item. -/
def atomNC : Items.AtomEntry :=
  { published := some "2020-01-01", link := some "http://x", title := some "t" }

/-- C7 counterexample: an Atom entry with neither content nor summary makes
`parseATOMItem` execute `throw null` — the call faults instead of returning
the no-item result. -/
theorem parseATOMItem_throws_cex :
    Items.parseATOMItem atomNC = Except.error JSError.jsNull ∧
      Items.parseATOMItem atomNC ≠ Except.ok none := by
  constructor
  · rfl
  · intro hcontra
    rw [show Items.parseATOMItem atomNC = Except.error JSError.jsNull from rfl] at hcontra
    exact Except.noConfusion hcontra

/-- C7 as amended: a JSON-Feed entry with only `content_text` yields
`contentHtml` wrapped in a paragraph tag; an entry with no rich/HTML body
and no plain-text/summary field produces no item in the JSON-Feed and RSS2
normalizers (which return the no-item result), while the Atom normalizer
faults on such an entry (`throw null`) instead of returning the no-item
result. -/
theorem normalizer_content_discipline :
    (∀ (json : Items.JSONEntry) (t u : String),
        json.content_html = none → json.content_text = some t →
        json.url = some u → u ≠ "" →
        (Items.parseJSONItem json).map Item.contentHtml
          = some ("<p>" ++ t ++ "</p>")) ∧
      (∀ json : Items.JSONEntry, json.content_html = none →
        json.content_text = none → Items.parseJSONItem json = none) ∧
      (∀ e : Items.RSS2Entry, Items.strTruthy e.content = false →
        Items.strTruthy e.description = false → Items.parseRSS2Item e = none) ∧
      (∀ e : Items.AtomEntry, Items.strTruthy e.content = false →
        Items.strTruthy e.summary = false →
        Items.parseATOMItem e = Except.error JSError.jsNull) := by
  refine ⟨?_, ?_, ?_, ?_⟩
  · intro json t u h1 h2 h3 h4
    simp [Items.parseJSONItem, h1, h2, h3, h4]
  · intro json h1 h2
    simp [Items.parseJSONItem, h1, h2]
  · intro e h1 h2
    simp [Items.parseRSS2Item, h1, h2]
  · intro e h1 h2
    simp [Items.parseATOMItem, h1, h2]

/-- Witness for C7 (amended) at concrete entries of each format. -/
theorem normalizer_content_discipline_witness :
    (Items.parseJSONItem { content_text := some "hi", url := some "u" }).map
        Item.contentHtml = some "<p>hi</p>" ∧
      Items.parseJSONItem { url := some "u" } = none ∧
      Items.parseRSS2Item { link := some "http://x" } = none ∧
      Items.parseATOMItem { link := some "http://x" } = Except.error JSError.jsNull := by
  have h := normalizer_content_discipline
  exact ⟨h.1 { content_text := some "hi", url := some "u" } "hi" "u" rfl rfl rfl (by decide),
         h.2.1 { url := some "u" } rfl rfl,
         h.2.2.1 { link := some "http://x" } rfl rfl,
         h.2.2.2 { link := some "http://x" } rfl rfl⟩

/-- An eligible feed (id 1) with the given last load time. -/
def feedE (t : Int) : Feed := { id := 1, feedUrl := "e", lastLoadTime := t }

/-- A second feed (id 2) with the given last load time. -/
def feedW (t : Int) : Feed := { id := 2, feedUrl := "w", lastLoadTime := t }

/-- Registry with feed 1 at the front of the round-robin order. -/
def regEF (tE tW : Int) : FeedRegistry :=
  { order := [1, 2], recs := [feedE tE, feedW tW] }

/-- Registry with feed 2 at the front of the round-robin order. -/
def regWF (tE tW : Int) : FeedRegistry :=
  { order := [2, 1], recs := [feedE tE, feedW tW] }

/-- An empty store and cursor state. -/
def stEmpty : MState :=
  ⟨{ recs := [], nextId := 1 }, { items := [], reading := -1, known := -1 }⟩

/-- A fetch oracle delivering one item for feed 1 and nothing new for any
other feed. -/
def fetchOne (it : Item) : Nat → Option (List Item) :=
  fun fid => if fid = 1 then some [it] else some []

/-- The model state after feed 1's single fetched item has been pushed into
the empty store. -/
def st1After (it : Item) : MState :=
  ⟨{ recs := [{ it with id := 1 }], nextId := 2 },
   { items := [1], reading := -1, known := -1 }⟩

/-- Feed 1's record after a poll at time `now`. -/
def feedEUpd (now : Int) : Feed :=
  { id := 1, feedUrl := "e", lastLoadTime := now }

/-- The registry after feed 1 was polled at `now` and rotated to the back. -/
def reg1After (now tW : Int) : FeedRegistry :=
  { order := [2, 1], recs := [feedEUpd now, feedW tW] }

/-- A registry holding only the within-wait feed. -/
def regSolo (tW : Int) : FeedRegistry := { order := [2], recs := [feedW tW] }

/-- The empty registry. -/
def regNone : FeedRegistry := { order := [], recs := [] }

/-- Unfolding of one `loadMore` do/while iteration. -/
theorem loadMore_succ (fetch : Nat → Option (List Item)) (rnd nowS : String)
    (now : Int) (fuel : Nat) (st : MState) (reg : FeedRegistry) :
    Model1.loadMore fetch rnd nowS now (fuel + 1) st reg
      = (let r : Int × MState × FeedRegistry :=
           match Feeds.first reg with
           | some feedId => Model1.loadFeed fetch rnd nowS now st reg feedId
           | none => ((-1 : Int), st, reg)
         if r.1 ≥ 0 ∧ Model1.shouldLoadMore r.2.1.cur then
           Model1.loadMore fetch rnd nowS now fuel r.2.1 r.2.2
         else (r.2.1, r.2.2)) := rfl

/-- C8 counterexample: with the within-wait feed (id 2) at the front of the
round-robin order and the eligible feed (id 1) behind it, a `loadMore` run
below the watermark polls nothing at all — the state and the registry are
unchanged, so the eligible feed is not polled and nothing rotates — and the
skip signal of `cb_getLoadCandidate` is the very value returned when no
candidate feed exists at all, not a distinct one. -/
theorem scheduler_skip_blocks_round_cex :
    (feedE 0).lastLoadTime ≤ 1000000000 - Model1.MinReloadWait ∧
      1000000000 - Model1.MinReloadWait < (feedW 999999999).lastLoadTime ∧
      Model1.loadMore (fetchOne { url := "a" }) "r" "n" 1000000000 5 stEmpty
          (regWF 0 999999999)
        = (stEmpty, regWF 0 999999999) ∧
      Model2.cb_getLoadCandidate (Except.ok JSVal.undef) 1000000000 stEmpty
          (regWF 0 999999999)
        = (Except.ok none, regWF 0 999999999) ∧
      Model2.cb_getLoadCandidate (Except.ok JSVal.undef) 1000000000 stEmpty regNone
        = (Except.ok none, regNone) := by
  refine ⟨by decide, by decide, rfl, rfl, rfl⟩

/-- C8 as amended: with the eligible feed at the front, `loadMore` polls only
that feed — its fetched item is pushed, its `lastLoadTime` is stamped and it
is rotated to the back — and the round then stops at the within-wait feed;
with the within-wait feed at the front the round polls nothing; and the value
signalling a skip (-1 from `loadFeed`, null from `cb_getLoadCandidate`) is
the same value that signals that no candidate feed exists, not a distinct
one. -/
theorem scheduler_front_eligible_spec (now tE tW : Int) (it : Item) (rnd nowS : String)
    (hE : tE ≤ now - Model1.MinReloadWait)
    (hW : now - Model1.MinReloadWait < tW) :
    Model1.loadMore (fetchOne it) rnd nowS now 5 stEmpty (regEF tE tW)
        = (st1After it, reg1After now tW) ∧
      Model1.loadFeed (fetchOne it) rnd nowS now stEmpty (regWF tE tW) 2
        = (-1, stEmpty, regWF tE tW) ∧
      Model2.cb_getLoadCandidate (Except.ok JSVal.undef) now stEmpty (regSolo tW)
        = (Except.ok none, regSolo tW) ∧
      Model2.cb_getLoadCandidate (Except.ok JSVal.undef) now stEmpty regNone
        = (Except.ok none, regNone) := by
  have hget1 : Feeds.get (regEF tE tW) 1 = some (feedE tE) := by
    simp [Feeds.get, regEF, feedE, feedW]
  have hget2 : Feeds.get (reg1After now tW) 2 = some (feedW tW) := by
    simp [Feeds.get, reg1After, feedEUpd, feedW]
  have hget2W : Feeds.get (regWF tE tW) 2 = some (feedW tW) := by
    simp [Feeds.get, regWF, feedE, feedW]
  have hskipW : ¬ (feedW tW).lastLoadTime ≤ now - Model1.MinReloadWait := by
    simp only [feedW]
    omega
  have hLF1 : Model1.loadFeed (fetchOne it) rnd nowS now stEmpty (regEF tE tW) 1
      = (1, st1After it, reg1After now tW) := by
    unfold Model1.loadFeed
    rw [hget1]
    dsimp only
    rw [if_pos (show (feedE tE).lastLoadTime ≤ now - Model1.MinReloadWait from hE)]
    simp [Feeds.loadItems, fetchOne, Feeds.updateFeed, Feeds.rotate, pushLoop,
          Items.pushItem, dbAdd, stEmpty, Items.length, regEF, feedE, feedW,
          st1After, reg1After, feedEUpd]
  have hLF2 : Model1.loadFeed (fetchOne it) rnd nowS now (st1After it)
      (reg1After now tW) 2 = (-1, st1After it, reg1After now tW) := by
    unfold Model1.loadFeed
    rw [hget2]
    dsimp only
    rw [if_neg hskipW]
  refine ⟨?_, ?_, ?_, ?_⟩
  · rw [show (5 : Nat) = 4 + 1 from rfl, loadMore_succ]
    rw [show Feeds.first (regEF tE tW) = some 1 from rfl]
    dsimp only
    rw [hLF1]
    rw [if_pos (⟨by norm_num, rfl⟩ :
      ((1 : Int), st1After it, reg1After now tW).1 ≥ 0 ∧
        Model1.shouldLoadMore ((1 : Int), st1After it, reg1After now tW).2.1.cur = true)]
    rw [show (4 : Nat) = 3 + 1 from rfl, loadMore_succ]
    rw [show Feeds.first (reg1After now tW) = some 2 from rfl]
    dsimp only
    rw [hLF2]
    rw [if_neg (show ¬ (((-1 : Int), st1After it, reg1After now tW).1 ≥ 0 ∧
        Model1.shouldLoadMore ((-1 : Int), st1After it, reg1After now tW).2.1.cur = true) from by
      intro hcontra
      exact absurd hcontra.1 (show ¬ ((-1 : Int) ≥ 0) from by norm_num))]
  · unfold Model1.loadFeed
    rw [hget2W]
    dsimp only
    rw [if_neg hskipW]
  · have htime : (feedW tW).lastLoadTime > now - Model2.MinReloadWait * 3600 * 1000 := by
      simp only [feedW, Model2.MinReloadWait]
      have hw : Model1.MinReloadWait = 3600 * 1000 := rfl
      rw [hw] at hW
      omega
    unfold Model2.cb_getLoadCandidate
    dsimp only
    rw [if_neg (by decide)]
    rw [show Feeds.first (regSolo tW) = some 2 from rfl]
    dsimp only
    rw [if_neg (show ¬ (2 : Nat) = 0 from by norm_num)]
    rw [show Feeds.get (regSolo tW) 2 = some (feedW tW) from by
          simp [Feeds.get, regSolo, feedW]]
    dsimp only
    rw [if_pos htime]
  · rfl

/-- Witness for C8 (amended) at concrete times and item. -/
theorem scheduler_front_eligible_spec_witness :
    Model1.loadMore (fetchOne { url := "a" }) "r" "n" 1000000000 5 stEmpty
        (regEF 0 999999999)
      = (st1After { url := "a" }, reg1After 1000000000 999999999) ∧
      Model1.loadFeed (fetchOne { url := "a" }) "r" "n" 1000000000 stEmpty
          (regWF 0 999999999) 2
        = (-1, stEmpty, regWF 0 999999999) := by
  have h := scheduler_front_eligible_spec 1000000000 0 999999999 { url := "a" } "r" "n"
    (by decide) (by decide)
  exact ⟨h.1, h.2.1⟩

/-- A feed that failed loading with a recorded error text. -/
def feedBoom : Feed := { id := 3, feedUrl := "u", lastLoadTime := 5, error := some "boom" }

/-- The same feed with a different recorded error text. -/
def feedBang : Feed := { id := 3, feedUrl := "u", lastLoadTime := 5, error := some "bang" }

/-- C9 counterexample: the synthesized error item's content is a fixed
failure notice; two feeds differing only in their recorded error text get
the identical content, so the content does not carry the error text. -/
theorem oops_content_not_error_text_cex :
    (Model2.oopsItem "x" "n" feedBoom).contentHtml
        = (Model2.oopsItem "x" "n" feedBang).contentHtml ∧
      feedBoom.error ≠ feedBang.error ∧
      (Model2.oopsItem "x" "n" feedBoom).contentHtml
        = "If you see this, this feed \x27u\x27 failed loading:" ++
          "Check the console for the detail error." := by
  refine ⟨rfl, by decide, rfl⟩

/-- The registry holding just the errored feed. -/
def regErr (f : Feed) : FeedRegistry := { order := [f.id], recs := [f] }

/-- The errored feed's record after the failed poll was recorded at `now`:
error cleared, `lastLoadTime` stamped. -/
def clearedFeed (f : Feed) (now : Int) : Feed :=
  { f with error := none, lastLoadTime := now }

/-- The registry after the failed poll was recorded. -/
def regCleared (f : Feed) (now : Int) : FeedRegistry :=
  { order := [f.id], recs := [clearedFeed f now] }

/-- C9 as amended: for a feed whose fetch errored (its record carries the
error), `cb_updateFeed` pushes exactly one synthesized item on the feed's
behalf — its content the fixed failure notice naming the feed (the error
text itself is only logged, not placed in the content), its tags carrying
the error marker — clears the feed's error, stamps its `lastLoadTime` with
the attempt time and persists it, and the load scheduler yields no candidate
for that feed until the minimum reload wait has elapsed again. -/
theorem feed_error_synthesizes_oops (now : Int) (rnd nowS : String) (st : MState)
    (f : Feed) (err : String) (hf : f.error = some err)
    (hfresh : ∀ r ∈ st.store.recs, r.url ≠ rnd) :
    Model2.cb_updateFeed rnd nowS now (Except.ok JSVal.undef) st (regErr f) f []
      = Except.ok
          (⟨{ recs := st.store.recs
                ++ [{ Model2.oopsItem rnd nowS f with id := st.store.nextId }],
              nextId := st.store.nextId + 1 },
            { st.cur with items := st.cur.items ++ [st.store.nextId] }⟩,
           regCleared f now) ∧
      ({ Model2.oopsItem rnd nowS f with id := st.store.nextId }).tags = ["_error"] ∧
      (∀ (now2 : Int) (st2 : MState),
        now2 < now + Model2.MinReloadWait * 3600 * 1000 →
        Model2.cb_getLoadCandidate (Except.ok JSVal.undef) now2 st2 (regCleared f now)
          = (Except.ok none, regCleared f now)) := by
  refine ⟨?_, rfl, ?_⟩
  · unfold Model2.cb_updateFeed
    dsimp only
    rw [hf]
    have hadd : (st.store.recs.any
        (fun r => r.url = (Model2.oopsItem rnd nowS f).url)) = false := by
      rw [List.any_eq_false]
      intro r hr
      simp only [Model2.oopsItem, decide_eq_true_eq]
      exact hfresh r hr
    simp [pushLoop, Items.pushItem, dbAdd, hadd, Feeds.updateFeed, regErr,
          regCleared, clearedFeed]
  · intro now2 st2 h2
    have htime : (clearedFeed f now).lastLoadTime
        > now2 - Model2.MinReloadWait * 3600 * 1000 := by
      simp only [clearedFeed, Model2.MinReloadWait] at h2 ⊢
      omega
    unfold Model2.cb_getLoadCandidate
    dsimp only
    by_cases hu : Items.unreadCount st2.cur ≥ Model2.WaterMark
    · rw [if_pos hu]
    · rw [if_neg hu]
      rw [show Feeds.first (regCleared f now) = some f.id from rfl]
      dsimp only
      by_cases hz : f.id = 0
      · rw [if_pos hz]
      · rw [if_neg hz]
        rw [show Feeds.get (regCleared f now) f.id = some (clearedFeed f now) from by
              simp [Feeds.get, regCleared, clearedFeed]]
        dsimp only
        rw [if_pos htime]

/-- Witness for C9 (amended) at a concrete errored feed and empty store. -/
theorem feed_error_synthesizes_oops_witness :
    Model2.cb_updateFeed "x" "n" 777 (Except.ok JSVal.undef) stEmpty
        (regErr feedBoom) feedBoom []
      = Except.ok
          (⟨{ recs := [{ Model2.oopsItem "x" "n" feedBoom with id := 1 }],
              nextId := 2 },
            { items := [1], reading := -1, known := -1 }⟩,
           regCleared feedBoom 777) := by
  have h := feed_error_synthesizes_oops 777 "x" "n" stEmpty feedBoom "boom" rfl
    (by intro r hr; simp [stEmpty] at hr)
  exact h.1

end Airss
